import Mathlib

/-!
# Maze puzzle engine — verification development

A shallow embedding of the move-validation engine in
`backend/app/puzzle_engine.py`: grid validation, portal-chain resolution,
and the per-move simulation loop, together with theorems about the
structural invariants and gameplay rules of the engine.

Conventions of the embedding:
* Python dict positions `{r, c}` become the structure `Pos` with `Int`
  coordinates.
* Python `raise PuzzleValidationError(msg)` becomes `Except.error msg`;
  returned result dicts become the structure `AttemptResult`.
* The collected-key set (a Python `set` of strings) is a `Finset String`.
* The `rules` sub-dict is flattened into `GridData` fields holding the
  effective values after Python's `.get(..., default)` lookups.
* Message strings mirror the source f-strings; interpolated positions are
  rendered by `posStr` (the exact textual rendering of a position is the
  one representational freedom taken).
-/

namespace Maze

/-- A grid position: row `r`, column `c` (Python dict `{"r": ..., "c": ...}`). -/
structure Pos where
  r : Int
  c : Int
deriving DecidableEq, Repr

/-- The cells table: a list of rows, each a list of raw cell-code strings. -/
abbrev Cells := List (List String)

/-- Rendering of a position used inside error messages
(Python prints the dict itself; we fix one textual form). -/
def posStr (p : Pos) : String :=
  "(" ++ toString p.r ++ ", " ++ toString p.c ++ ")"

/-- Python `cell.startswith("P")`: the code begins with the character `P`
(`String.startsWith` is kernel-opaque, so this is spelled on the character
list). -/
def startsWithP (s : String) : Bool :=
  match s.data with
  | [] => false
  | c :: _ => c = 'P'

/-- Python `move.strip().upper()`: drop surrounding whitespace and
upper-case (spelled on the character list for kernel reducibility). -/
def normalizeMove (s : String) : String :=
  ⟨((s.data.dropWhile Char.isWhitespace).reverse.dropWhile
      Char.isWhitespace).reverse.map Char.toUpper⟩

/-- `MOVES` direction table from the source: maps a move token to its delta. -/
def MOVES (move : String) : Option Pos :=
  if move = "UP" then some ⟨-1, 0⟩
  else if move = "DOWN" then some ⟨1, 0⟩
  else if move = "LEFT" then some ⟨0, -1⟩
  else if move = "RIGHT" then some ⟨0, 1⟩
  else none

/-- `apply_move`: apply a single move to a position; unknown tokens raise. -/
def apply_move (pos : Pos) (move : String) : Except String Pos :=
  match MOVES move with
  | some d => .ok ⟨pos.r + d.r, pos.c + d.c⟩
  | none => .error ("Invalid move: " ++ move ++ ". Must be one of [UP, DOWN, LEFT, RIGHT]")

/-- `is_position_valid`: bounds check against the declared dimensions. -/
def is_position_valid (pos : Pos) (rows cols : Nat) : Bool :=
  decide (0 ≤ pos.r ∧ pos.r < (rows : Int) ∧ 0 ≤ pos.c ∧ pos.c < (cols : Int))

/-- `get_cell_content`, guarded: the source indexes the raw lists after a
bounds check at every call site; out-of-range access is `none` here. -/
def getCell (cells : Cells) (p : Pos) : Option String :=
  if p.r < 0 ∨ p.c < 0 then none
  else match cells.get? p.r.toNat with
    | none => none
    | some row => row.get? p.c.toNat

/-- The complete puzzle description consumed by the engine
(`grid_data` plus the effective `rules` values after defaulting). -/
structure GridData where
  rows : Nat
  cols : Nat
  start : Pos
  goal : Pos
  cells : Cells
  portals : List (String × Pos)
  max_steps : Nat
  doors_require_keys : Bool
  collect_all_keys : Bool
deriving DecidableEq, Repr

/-! ## Portal resolution (`resolve_portals`) -/

/-- One outcome of portal resolution: final position, teleport trace, jump count. -/
abbrev PortalOut := Pos × List Pos × Nat

/-- The body of the `while True` loop of `resolve_portals`, with an explicit
fuel argument; `none` models the (unreachable) exhaustion of the fuel, and
the termination theorem shows the top-level fuel never runs out. -/
def resolvePortalsAux (cells : Cells) (portals : List (String × Pos))
    (rows cols maxJumps : Nat) :
    Nat → Pos → List String → List Pos → Nat → Option (Except String PortalOut)
  | 0, _, _, _, _ => none
  | fuel + 1, current, visited, ttrace, jumps =>
    if ¬ is_position_valid current rows cols then
      some (.error ("Portal teleported to out-of-bounds position " ++ posStr current))
    else
      match getCell cells current with
      | none => some (.error "cell index error")
      | some cell =>
        if ¬ startsWithP cell then
          -- loop exit; final wall check (bounds already known valid here)
          if cell = "W" then
            some (.error ("Portal teleported into a wall at " ++ posStr current))
          else
            some (.ok (current, ttrace, jumps))
        else if maxJumps ≤ jumps then
          some (.error ("Portal chain exceeded maximum jumps (" ++ toString maxJumps ++ ")"))
        else if cell ∈ visited then
          some (.error ("Portal loop detected involving " ++ cell))
        else
          match portals.lookup cell with
          | none => some (.error ("Portal " ++ cell ++ " not found in portal mapping"))
          | some target =>
            if ¬ is_position_valid target rows cols then
              some (.error ("Portal " ++ cell ++ " targets out-of-bounds position " ++ posStr target))
            else
              resolvePortalsAux cells portals rows cols maxJumps
                fuel target (cell :: visited) (ttrace ++ [target]) (jumps + 1)

/-- `resolve_portals`: resolve teleport chains from `pos`.  The fuel
`maxJumps + 1` is sufficient (proved below); the fuel-out fallback is an
unreachable error. -/
def resolve_portals (pos : Pos) (cells : Cells) (portals : List (String × Pos))
    (rows cols : Nat) (maxJumps : Nat := 10) : Except String PortalOut :=
  match resolvePortalsAux cells portals rows cols maxJumps (maxJumps + 1) pos [] [] 0 with
  | some r => r
  | none => .error "fuel exhausted"

/-! ## Grid validation (`validate_puzzle_grid`) -/

/-- Recognized literal cell codes (Python `allowed_literals`). -/
def allowedLiterals : List String := [" ", "S", "G", "W", "K", "D"]

/-- A cell code is recognized when it is a literal or a portal code. -/
def recognized (cell : String) : Bool :=
  cell ∈ allowedLiterals || startsWithP cell

/-- The per-row length check loop: first row whose length differs from
`cols` yields the error, fail-fast, `i` the index of the current row. -/
def checkRowLengths (cols : Nat) : Nat → Cells → Except String Unit
  | _, [] => .ok ()
  | i, row :: rest =>
    if row.length ≠ cols then
      .error ("Row " ++ toString i ++ " has " ++ toString row.length ++
        " columns, expected " ++ toString cols)
    else
      checkRowLengths cols (i + 1) rest

/-- The inner cell loop of the content check: recognizes each code and
counts `S`/`G` occurrences, fail-fast on the first unknown code. -/
def checkCellsRow (r : Nat) : Nat → List String → Nat × Nat → Except String (Nat × Nat)
  | _, [], counts => .ok counts
  | c, cell :: rest, (sc, gc) =>
    if ¬ recognized cell then
      .error ("Unknown cell value '" ++ cell ++ "' at (" ++ toString r ++ "," ++
        toString c ++ "). Allowed: [' ', 'D', 'G', 'K', 'S', 'W'] or 'P*'")
    else
      checkCellsRow r (c + 1) rest
        (if cell = "S" then (sc + 1, gc) else if cell = "G" then (sc, gc + 1) else (sc, gc))

/-- The outer cell loop: all rows, threading the `S`/`G` counters. -/
def checkCellsAll : Nat → Cells → Nat × Nat → Except String (Nat × Nat)
  | _, [], counts => .ok counts
  | r, row :: rest, counts =>
    match checkCellsRow r 0 row counts with
    | .error e => .error e
    | .ok counts' => checkCellsAll (r + 1) rest counts'

/-- Total occurrences of the code `v` in the cells table
(Python `sum(row.count(v) for row in cells)`). -/
def countCell (cells : Cells) (v : String) : Nat :=
  (cells.map (fun row => row.count v)).sum

/-- `validate_puzzle_grid`: structural validation of a puzzle description,
fail-fast in source order (dimensions positive, row/column counts,
start/goal in bounds, cell recognition with `S`/`G` counting, start/goal
cell markers, `S`/`G` cardinality). -/
def validate_puzzle_grid (g : GridData) : Except String Unit :=
  if g.rows = 0 ∨ g.cols = 0 then
    .error "Grid dimensions must be positive"
  else if g.cells.length ≠ g.rows then
    .error ("Expected " ++ toString g.rows ++ " rows, got " ++ toString g.cells.length)
  else
    match checkRowLengths g.cols 0 g.cells with
    | .error e => .error e
    | .ok _ =>
      if ¬ is_position_valid g.start g.rows g.cols then
        .error ("Start position " ++ posStr g.start ++ " is out of bounds")
      else if ¬ is_position_valid g.goal g.rows g.cols then
        .error ("Goal position " ++ posStr g.goal ++ " is out of bounds")
      else
        match checkCellsAll 0 g.cells (0, 0) with
        | .error e => .error e
        | .ok (startCount, goalCount) =>
          if getCell g.cells g.start ≠ some "S" then
            .error "Grid invariant violated: start position does not contain 'S'"
          else if getCell g.cells g.goal ≠ some "G" then
            .error "Grid invariant violated: goal position does not contain 'G'"
          else if startCount ≠ 1 then
            .error ("Expected exactly one 'S' in grid, found " ++ toString startCount)
          else if goalCount ≠ 1 then
            .error ("Expected exactly one 'G' in grid, found " ++ toString goalCount)
          else
            .ok ()

/-! ## Move simulation (`validate_moves`) -/

/-- The result dict returned by `validate_moves`
(`keys_collected` is the Python set, modelled as a `Finset`). -/
structure AttemptResult where
  success : Bool
  message : String
  steps : Nat
  keys_collected : Finset String
  trace : List Pos
  final_position : Pos
deriving DecidableEq

/-- The mutable per-simulation state of the move loop. -/
structure SimState where
  pos : Pos
  keys : Finset String
  trace : List Pos
  steps : Nat
deriving DecidableEq

/-- Outcome of processing one move: a terminal result, or the next state. -/
inductive StepOut where
  | done (r : AttemptResult)
  | cont (st : SimState)
deriving DecidableEq

/-- Key identifier derived from the key cell's coordinates
(Python `f"key_r_c"`). -/
def keyId (p : Pos) : String :=
  "key_" ++ toString p.r ++ "_" ++ toString p.c

/-- Failure result builder used by the terminal branches of the loop:
carries the message, the current step counter and the untouched state. -/
def failAt (msg : String) (steps : Nat) (keys : Finset String)
    (trace : List Pos) (pos : Pos) : AttemptResult :=
  { success := false, message := msg, steps := steps, keys_collected := keys,
    trace := trace, final_position := pos }

/-- Source lines 349–355: after portal resolution, when at least one jump
was made, the landing position, the teleport trace, and the landing cell
are replaced by the resolved ones. -/
def afterPortal (cells : Cells) (i : Nat) (newPos : Pos) (cell : String)
    (out : PortalOut) : Except String (Pos × List Pos × String) :=
  if 0 < out.2.2 then
    match getCell cells out.1 with
    | none => .error ("Move " ++ toString (i + 1) ++ ": cell index error")
    | some cell' => .ok (out.1, out.2.1, cell')
  else
    .ok (newPos, [], cell)

/-- The movement phase of one loop iteration, source lines 316–364:
compute the new position, bounds check, wall check, portal resolution.
Returns the landing position, the teleport-trace extension, and the landing
cell code (after any teleport), or the terminal failure message. -/
def moveLanding (cells : Cells) (portals : List (String × Pos)) (rows cols : Nat)
    (i : Nat) (pos : Pos) (move : String) : Except String (Pos × List Pos × String) :=
  match apply_move pos move with
  | .error e => .error ("Move " ++ toString (i + 1) ++ ": " ++ e)
  | .ok newPos =>
    if ¬ is_position_valid newPos rows cols then
      .error ("Move " ++ toString (i + 1) ++ " (" ++ move ++ ") goes out of bounds")
    else
      match getCell cells newPos with
      | none => .error ("Move " ++ toString (i + 1) ++ ": cell index error")
      | some cell =>
        if cell = "W" then
          .error ("Move " ++ toString (i + 1) ++ " (" ++ move ++ ") hits a wall at " ++
            posStr newPos)
        else if startsWithP cell then
          match resolve_portals newPos cells portals rows cols with
          | .error e => .error ("Portal error: " ++ e)
          | .ok out => afterPortal cells i newPos cell out
        else
          .ok (newPos, [], cell)

/-- One full iteration of the move loop of `validate_moves` (index `i`,
raw token `rawMove`): normalization, step counting and limit, movement
(`moveLanding`), key/door interactions, goal check. -/
def stepMove (cells : Cells) (portals : List (String × Pos)) (rows cols : Nat)
    (goal : Pos) (maxSteps : Nat) (doorsRequireKeys collectAllKeys : Bool)
    (totalKeys : Nat) (i : Nat) (rawMove : String) (st : SimState) : StepOut :=
  let move := normalizeMove rawMove
  let steps := st.steps + 1
  if maxSteps < steps then
    .done (failAt ("Step limit exceeded (" ++ toString maxSteps ++ ")")
      steps st.keys st.trace st.pos)
  else
    match moveLanding cells portals rows cols i st.pos move with
    | .error msg => .done (failAt msg steps st.keys st.trace st.pos)
    | .ok (pos', ext, cell) =>
      let trace' := st.trace ++ ext ++ [pos']
      let keys' := if cell = "K" then insert (keyId pos') st.keys else st.keys
      if cell = "D" ∧ doorsRequireKeys ∧ st.keys.card = 0 then
        .done (failAt ("Door at " ++ posStr pos' ++ " requires a key")
          steps keys' trace' pos')
      else if pos' = goal then
        if collectAllKeys ∧ keys'.card < totalKeys then
          .done (failAt ("Must collect all keys (" ++ toString totalKeys ++
            ") before reaching goal. Collected: " ++ toString keys'.card)
            steps keys' trace' pos')
        else
          .done { success := true,
                  message := "Goal reached in " ++ toString steps ++ " steps!",
                  steps := steps, keys_collected := keys', trace := trace',
                  final_position := pos' }
      else
        .cont { pos := pos', keys := keys', trace := trace', steps := steps }

/-- The `for i, move in enumerate(moves)` loop; exhaustion of the list
yields the "moves exhausted" failure with the accumulated state. -/
def simLoop (cells : Cells) (portals : List (String × Pos)) (rows cols : Nat)
    (goal : Pos) (maxSteps : Nat) (doorsRequireKeys collectAllKeys : Bool)
    (totalKeys : Nat) : SimState → Nat → List String → AttemptResult
  | st, _, [] =>
    failAt "Moves exhausted without reaching goal" st.steps st.keys st.trace st.pos
  | st, i, m :: rest =>
    match stepMove cells portals rows cols goal maxSteps doorsRequireKeys
        collectAllKeys totalKeys i m st with
    | .done r => r
    | .cont st' =>
      simLoop cells portals rows cols goal maxSteps doorsRequireKeys
        collectAllKeys totalKeys st' (i + 1) rest

/-- `validate_moves`: validate the grid, then simulate the move list.
Structural errors surface as `Except.error` (mirroring the re-raised
`PuzzleValidationError`); every gameplay outcome is an `ok` result. -/
def validate_moves (g : GridData) (moves : List String) : Except String AttemptResult :=
  match validate_puzzle_grid g with
  | .error e => .error ("Puzzle validation failed: " ++ e)
  | .ok _ =>
    let pos := g.start
    let trace : List Pos := [pos]
    let totalKeys := if g.collect_all_keys then countCell g.cells "K" else 0
    let runLoop : AttemptResult :=
      simLoop g.cells g.portals g.rows g.cols g.goal g.max_steps
        g.doors_require_keys g.collect_all_keys totalKeys
        { pos := pos, keys := ∅, trace := trace, steps := 0 } 0 moves
    if pos = g.goal then
      if g.collect_all_keys ∧ 0 < totalKeys then
        .ok runLoop
      else
        .ok { success := true, message := "Already at goal!", steps := 0,
              keys_collected := ∅, trace := trace, final_position := pos }
    else
      .ok runLoop

/-- Follows the spec's words (for the step-accounting claim): the number of
moves consumed by the loop up to and including the terminating move. -/
def movesConsumed (cells : Cells) (portals : List (String × Pos)) (rows cols : Nat)
    (goal : Pos) (maxSteps : Nat) (doorsRequireKeys collectAllKeys : Bool)
    (totalKeys : Nat) : SimState → Nat → List String → Nat
  | _, _, [] => 0
  | st, i, m :: rest =>
    match stepMove cells portals rows cols goal maxSteps doorsRequireKeys
        collectAllKeys totalKeys i m st with
    | .done _ => 1
    | .cont st' =>
      1 + movesConsumed cells portals rows cols goal maxSteps doorsRequireKeys
        collectAllKeys totalKeys st' (i + 1) rest

/-- Follows the spec's words: moves consumed by a whole `validate_moves`
call (zero when the immediate-goal shortcut returns before the loop). -/
def movesConsumedTotal (g : GridData) (moves : List String) : Nat :=
  let totalKeys := if g.collect_all_keys then countCell g.cells "K" else 0
  if g.start = g.goal ∧ ¬ (g.collect_all_keys ∧ 0 < totalKeys) then 0
  else
    movesConsumed g.cells g.portals g.rows g.cols g.goal g.max_steps
      g.doors_require_keys g.collect_all_keys totalKeys
      { pos := g.start, keys := ∅, trace := [g.start], steps := 0 } 0 moves

/-! ## Lemmas about grid validation -/

lemma checkRowLengths_ok_iff (cols : Nat) (i : Nat) (cells : Cells) :
    checkRowLengths cols i cells = .ok () ↔ ∀ row ∈ cells, row.length = cols := by
  induction cells generalizing i with
  | nil => simp [checkRowLengths]
  | cons row rest ih =>
    by_cases hlen : row.length = cols
    · simp [checkRowLengths, hlen, ih]
    · simp [checkRowLengths, hlen]

lemma checkCellsRow_ok (r : Nat) (row : List String) :
    ∀ (c sc gc : Nat), (∀ cell ∈ row, recognized cell = true) →
      checkCellsRow r c row (sc, gc) = .ok (sc + row.count "S", gc + row.count "G") := by
  induction row with
  | nil => simp [checkCellsRow]
  | cons cell rest ih =>
    intro c sc gc hrec
    have hcell : recognized cell = true := hrec cell (by simp)
    have hrest : ∀ x ∈ rest, recognized x = true := fun x hx => hrec x (by simp [hx])
    rw [checkCellsRow, if_neg (by simp [hcell])]
    by_cases hS : cell = "S"
    · rw [if_pos hS, ih _ _ _ hrest]
      simp [hS, List.count_cons]
      omega
    · rw [if_neg hS]
      by_cases hG : cell = "G"
      · rw [if_pos hG, ih _ _ _ hrest]
        simp [hG, hS, List.count_cons]
        omega
      · rw [if_neg hG, ih _ _ _ hrest]
        simp [hG, hS, List.count_cons]

lemma checkCellsRow_rec (r : Nat) (row : List String) :
    ∀ (c : Nat) (acc out : Nat × Nat), checkCellsRow r c row acc = .ok out →
      ∀ cell ∈ row, recognized cell = true := by
  induction row with
  | nil => simp
  | cons cell rest ih =>
    intro c acc out h x hx
    obtain ⟨sc, gc⟩ := acc
    rw [checkCellsRow] at h
    split at h
    · cases h
    · rcases List.mem_cons.mp hx with hx | hx
      · subst hx
        rename_i hrec
        simpa using hrec
      · exact ih _ _ _ h x hx

lemma countCell_cons (row : List String) (rest : Cells) (v : String) :
    countCell (row :: rest) v = row.count v + countCell rest v := by
  simp [countCell]

lemma checkCellsAll_ok (cells : Cells) :
    ∀ (r sc gc : Nat), (∀ row ∈ cells, ∀ cell ∈ row, recognized cell = true) →
      checkCellsAll r cells (sc, gc) =
        .ok (sc + countCell cells "S", gc + countCell cells "G") := by
  induction cells with
  | nil => simp [checkCellsAll, countCell]
  | cons row rest ih =>
    intro r sc gc hrec
    rw [checkCellsAll, checkCellsRow_ok r row _ _ _ (hrec row (by simp))]
    show checkCellsAll (r + 1) rest _ = _
    rw [ih _ _ _ (fun x hx => hrec x (by simp [hx]))]
    simp only [countCell_cons, Except.ok.injEq, Prod.mk.injEq]
    omega

lemma checkCellsAll_rec (cells : Cells) :
    ∀ (r : Nat) (acc out : Nat × Nat), checkCellsAll r cells acc = .ok out →
      ∀ row ∈ cells, ∀ cell ∈ row, recognized cell = true := by
  induction cells with
  | nil => simp
  | cons row rest ih =>
    intro r acc out h x hx
    rw [checkCellsAll] at h
    split at h
    · cases h
    · rcases List.mem_cons.mp hx with hx | hx
      · subst hx
        rename_i counts heq
        exact checkCellsRow_rec _ _ _ _ _ heq
      · exact ih _ _ _ h x hx

lemma getCell_some_parts {cells : Cells} {p : Pos} {v : String}
    (h : getCell cells p = some v) :
    0 ≤ p.r ∧ 0 ≤ p.c ∧
      ∃ row, cells.get? p.r.toNat = some row ∧ row.get? p.c.toNat = some v := by
  unfold getCell at h
  split at h
  · cases h
  · rename_i hneg
    push_neg at hneg
    split at h
    · cases h
    · rename_i row hrow
      exact ⟨by omega, by omega, row, hrow, h⟩

lemma valid_of_getCell {cells : Cells} {p : Pos} {v : String} {rows cols : Nat}
    (h : getCell cells p = some v) (hlen : cells.length = rows)
    (hcols : ∀ row ∈ cells, row.length = cols) :
    is_position_valid p rows cols = true := by
  obtain ⟨hr, hc, row, hrow, hcell⟩ := getCell_some_parts h
  have h1 : p.r.toNat < cells.length := List.get?_eq_some.mp hrow |>.1
  have h2 : p.c.toNat < row.length := List.get?_eq_some.mp hcell |>.1
  have h3 : row ∈ cells := List.get?_mem hrow
  have h4 : row.length = cols := hcols row h3
  simp only [is_position_valid, decide_eq_true_eq]
  omega

lemma getCell_isSome_of_valid {cells : Cells} {p : Pos} {rows cols : Nat}
    (hv : is_position_valid p rows cols = true) (hlen : cells.length = rows)
    (hcols : ∀ row ∈ cells, row.length = cols) :
    ∃ v, getCell cells p = some v := by
  simp only [is_position_valid, decide_eq_true_eq] at hv
  obtain ⟨h1, h2, h3, h4⟩ := hv
  have hr : p.r.toNat < cells.length := by omega
  have hrow : cells.get? p.r.toNat = some (cells.get ⟨p.r.toNat, hr⟩) :=
    List.get?_eq_get hr
  have hrl : (cells.get ⟨p.r.toNat, hr⟩).length = cols :=
    hcols _ (cells.get_mem _ _)
  have hc : p.c.toNat < (cells.get ⟨p.r.toNat, hr⟩).length := by omega
  refine ⟨(cells.get ⟨p.r.toNat, hr⟩).get ⟨p.c.toNat, hc⟩, ?_⟩
  unfold getCell
  rw [if_neg (by omega), hrow]
  exact List.get?_eq_get hc

/-- The structural well-formedness conditions of a grid, as the spec's
validation-correctness property enumerates them. -/
def gridWellFormed (g : GridData) : Prop :=
  0 < g.rows ∧ 0 < g.cols ∧
  g.cells.length = g.rows ∧ (∀ row ∈ g.cells, row.length = g.cols) ∧
  (∀ row ∈ g.cells, ∀ cell ∈ row, recognized cell = true) ∧
  getCell g.cells g.start = some "S" ∧ getCell g.cells g.goal = some "G" ∧
  countCell g.cells "S" = 1 ∧ countCell g.cells "G" = 1

instance (g : GridData) : Decidable (gridWellFormed g) := by
  unfold gridWellFormed
  infer_instance

/-- C1: `validate_puzzle_grid` succeeds iff the declared dimensions match the
cells table (`rows > 0`, `cols > 0`, exactly `rows` rows of exactly `cols`
entries), every cell code is recognized, the cells at the declared start and
goal coordinates are exactly `S` and `G`, and the whole grid holds exactly
one `S` and one `G`; every grid violating any of these fails with a
structural error value. -/
theorem validate_grid_ok_iff (g : GridData) :
    (validate_puzzle_grid g = .ok () ↔ gridWellFormed g) ∧
    (validate_puzzle_grid g = .ok () ∨ ∃ e, validate_puzzle_grid g = .error e) := by
  refine ⟨⟨?_, ?_⟩, ?_⟩
  · intro h
    unfold validate_puzzle_grid at h
    split at h
    · simp at h
    rename_i hdim
    split at h
    · simp at h
    rename_i hlen
    split at h
    · simp at h
    rename_i u hrl
    split at h
    · simp at h
    rename_i hvs
    split at h
    · simp at h
    rename_i hvg
    split at h
    · simp at h
    rename_i startCount goalCount hca
    split at h
    · simp at h
    rename_i hstart
    split at h
    · simp at h
    rename_i hgoal
    split at h
    · simp at h
    rename_i hsc
    split at h
    · simp at h
    rename_i hgc
    push_neg at hdim hlen hstart hgoal hsc hgc
    have hrows : ∀ row ∈ g.cells, row.length = g.cols :=
      (checkRowLengths_ok_iff _ _ _).mp hrl
    have hrec : ∀ row ∈ g.cells, ∀ cell ∈ row, recognized cell = true :=
      checkCellsAll_rec _ _ _ _ hca
    have hca' : checkCellsAll 0 g.cells (0, 0) =
        .ok (countCell g.cells "S", countCell g.cells "G") := by
      simpa using checkCellsAll_ok g.cells 0 0 0 hrec
    have hcounts : startCount = countCell g.cells "S" ∧
        goalCount = countCell g.cells "G" := by
      have := hca.symm.trans hca'
      simpa using this
    exact ⟨by omega, by omega, hlen, hrows, hrec, hstart, hgoal,
      by omega, by omega⟩
  · rintro ⟨h1, h2, h3, h4, h5, h6, h7, h8, h9⟩
    have hrl : checkRowLengths g.cols 0 g.cells = .ok () :=
      (checkRowLengths_ok_iff _ _ _).mpr h4
    have hca : checkCellsAll 0 g.cells (0, 0) =
        .ok (countCell g.cells "S", countCell g.cells "G") := by
      simpa using checkCellsAll_ok g.cells 0 0 0 h5
    have hvs : is_position_valid g.start g.rows g.cols = true :=
      valid_of_getCell h6 h3 h4
    have hvg : is_position_valid g.goal g.rows g.cols = true :=
      valid_of_getCell h7 h3 h4
    simp [validate_puzzle_grid, hrl, hca, hvs, hvg, h6, h7, h8, h9, h3,
      (by omega : g.rows ≠ 0), (by omega : g.cols ≠ 0), -Prod.mk_zero_zero]
    omega
  · cases hv : validate_puzzle_grid g with
    | ok u =>
      cases u
      exact Or.inl rfl
    | error e => exact Or.inr ⟨e, rfl⟩

/-! ## Lemmas about single moves -/

/-- The collected-key set carried by a step outcome. -/
def stepKeys : StepOut → Finset String
  | .done r => r.keys_collected
  | .cont st => st.keys

lemma moveLanding_cell {cells : Cells} {portals : List (String × Pos)}
    {rows cols i : Nat} {pos : Pos} {move : String} {p : Pos} {ext : List Pos}
    {c : String}
    (h : moveLanding cells portals rows cols i pos move = .ok (p, ext, c)) :
    getCell cells p = some c := by
  unfold moveLanding at h
  split at h
  · simp at h
  rename_i newPos happ
  split at h
  · simp at h
  split at h
  · simp at h
  rename_i cell hget
  split at h
  · simp at h
  split at h
  · -- portal cell
    split at h
    · simp at h
    rename_i out hres
    unfold afterPortal at h
    by_cases hpj : 0 < out.2.2
    · rw [if_pos hpj] at h
      split at h
      · simp at h
      rename_i cell' hget'
      simp only [Except.ok.injEq, Prod.mk.injEq] at h
      obtain ⟨h1, _, h3⟩ := h
      subst h1; subst h3
      exact hget'
    · rw [if_neg hpj] at h
      simp only [Except.ok.injEq, Prod.mk.injEq] at h
      obtain ⟨h1, _, h3⟩ := h
      subst h1; subst h3
      exact hget
  · simp only [Except.ok.injEq, Prod.mk.injEq] at h
    obtain ⟨h1, _, h3⟩ := h
    subst h1; subst h3
    exact hget

/-- C10: a rejected move leaves the state unchanged — when the movement
phase fails (out of bounds, wall collision, or any portal error), the
terminal result's `final_position` is the position held before the move and
its trace is exactly the prior trace (no entry from the failed move). -/
theorem rejected_move_state_unchanged (cells : Cells) (portals : List (String × Pos))
    (rows cols : Nat) (goal : Pos) (maxSteps : Nat)
    (doorsRequireKeys collectAllKeys : Bool) (totalKeys i : Nat)
    (rawMove : String) (st : SimState) (msg : String)
    (hstep : st.steps + 1 ≤ maxSteps)
    (hml : moveLanding cells portals rows cols i st.pos (normalizeMove rawMove) = .error msg) :
    stepMove cells portals rows cols goal maxSteps doorsRequireKeys collectAllKeys
        totalKeys i rawMove st =
      .done (failAt msg (st.steps + 1) st.keys st.trace st.pos) ∧
    (failAt msg (st.steps + 1) st.keys st.trace st.pos).final_position = st.pos ∧
    (failAt msg (st.steps + 1) st.keys st.trace st.pos).trace = st.trace ∧
    (failAt msg (st.steps + 1) st.keys st.trace st.pos).success = false := by
  refine ⟨?_, rfl, rfl, rfl⟩
  have hns : ¬ maxSteps < st.steps + 1 := by omega
  simp only [stepMove]
  rw [if_neg hns]
  simp [hml]

/-- C4: with `doors_require_keys` true, a move landing (after any teleport)
on a Door fails as a locked-door failure exactly when the key set is empty;
with at least one key the move proceeds and the key set is unchanged (same
elements, hence same size). -/
theorem door_rule (cells : Cells) (portals : List (String × Pos))
    (rows cols : Nat) (goal : Pos) (maxSteps : Nat) (collectAllKeys : Bool)
    (totalKeys i : Nat) (rawMove : String) (st : SimState) (p' : Pos) (ext : List Pos)
    (hml : moveLanding cells portals rows cols i st.pos (normalizeMove rawMove) =
      .ok (p', ext, "D"))
    (hstep : st.steps + 1 ≤ maxSteps)
    (hgoal : getCell cells goal = some "G") :
    (st.keys = ∅ →
      stepMove cells portals rows cols goal maxSteps true collectAllKeys totalKeys
          i rawMove st =
        .done (failAt ("Door at " ++ posStr p' ++ " requires a key") (st.steps + 1)
          st.keys (st.trace ++ ext ++ [p']) p')) ∧
    (st.keys ≠ ∅ →
      stepMove cells portals rows cols goal maxSteps true collectAllKeys totalKeys
          i rawMove st =
        .cont ⟨p', st.keys, st.trace ++ ext ++ [p'], st.steps + 1⟩) := by
  have hp' : getCell cells p' = some "D" := moveLanding_cell hml
  have hpg : p' ≠ goal := by
    intro e
    rw [e] at hp'
    exact absurd (hgoal.symm.trans hp') (by decide)
  have hns : ¬ maxSteps < st.steps + 1 := by omega
  have hDK : ("D" : String) ≠ "K" := by decide
  constructor
  · intro hk
    simp only [stepMove]
    rw [if_neg hns]
    simp [hml, hk, hDK, failAt]
  · intro hk
    have hcard : st.keys.card ≠ 0 := by
      simpa [Finset.card_eq_zero] using hk
    simp only [stepMove]
    rw [if_neg hns]
    simp [hml, hpg, hcard, hDK]

/-- C5: with `collect_all_keys` true, a move landing on the goal while the
collected-key count is below the total number of Key cells is a terminal
failure whose message cites the collected and total counts; landing on the
goal once the count is not below the total is a terminal success. -/
theorem all_keys_goal_rule (cells : Cells) (portals : List (String × Pos))
    (rows cols : Nat) (goal : Pos) (maxSteps : Nat) (doorsRequireKeys : Bool)
    (totalKeys i : Nat) (rawMove : String) (st : SimState) (p' : Pos)
    (ext : List Pos) (c : String)
    (hml : moveLanding cells portals rows cols i st.pos (normalizeMove rawMove) =
      .ok (p', ext, c))
    (hstep : st.steps + 1 ≤ maxSteps)
    (hgoal : getCell cells goal = some "G")
    (hpg : p' = goal) :
    (st.keys.card < totalKeys →
      stepMove cells portals rows cols goal maxSteps doorsRequireKeys true totalKeys
          i rawMove st =
        .done (failAt ("Must collect all keys (" ++ toString totalKeys ++
            ") before reaching goal. Collected: " ++ toString st.keys.card)
          (st.steps + 1) st.keys (st.trace ++ ext ++ [p']) p')) ∧
    (totalKeys ≤ st.keys.card →
      stepMove cells portals rows cols goal maxSteps doorsRequireKeys true totalKeys
          i rawMove st =
        .done { success := true,
                message := "Goal reached in " ++ toString (st.steps + 1) ++ " steps!",
                steps := st.steps + 1, keys_collected := st.keys,
                trace := st.trace ++ ext ++ [p'], final_position := p' }) := by
  have hp' : getCell cells p' = some c := moveLanding_cell hml
  have hc : c = "G" := by
    rw [hpg] at hp'
    have := hgoal.symm.trans hp'
    simpa using this.symm
  subst hc
  have hns : ¬ maxSteps < st.steps + 1 := by omega
  have hGK : ("G" : String) ≠ "K" := by decide
  have hGD : ("G" : String) ≠ "D" := by decide
  constructor
  · intro hlt
    simp only [stepMove]
    rw [if_neg hns]
    simp [hml, hGK, hGD, hpg, hlt, failAt]
  · intro hge
    simp only [stepMove]
    rw [if_neg hns]
    simp [hml, hGK, hGD, hpg]
    exact fun h' => absurd h' (by omega)

/-- C6: the key identifier is derived solely from the key cell's
coordinates (`keyId`), landing on a Key cell inserts exactly that
identifier — so a repeat visit leaves the set unchanged — and no step ever
removes an element from the collected-key set. -/
theorem key_collection_idempotent (cells : Cells) (portals : List (String × Pos))
    (rows cols : Nat) (goal : Pos) (maxSteps : Nat)
    (doorsRequireKeys collectAllKeys : Bool) (totalKeys i : Nat)
    (rawMove : String) (st : SimState) :
    (st.keys ⊆ stepKeys (stepMove cells portals rows cols goal maxSteps
      doorsRequireKeys collectAllKeys totalKeys i rawMove st)) ∧
    (∀ p' ext,
      moveLanding cells portals rows cols i st.pos (normalizeMove rawMove) =
        .ok (p', ext, "K") →
      ¬ maxSteps < st.steps + 1 →
      stepKeys (stepMove cells portals rows cols goal maxSteps doorsRequireKeys
          collectAllKeys totalKeys i rawMove st) = insert (keyId p') st.keys ∧
      (keyId p' ∈ st.keys →
        stepKeys (stepMove cells portals rows cols goal maxSteps doorsRequireKeys
          collectAllKeys totalKeys i rawMove st) = st.keys)) := by
  constructor
  · simp only [stepMove]
    by_cases hns : maxSteps < st.steps + 1
    · rw [if_pos hns]
      simp [stepKeys, failAt]
    · rw [if_neg hns]
      cases hml : moveLanding cells portals rows cols i st.pos (normalizeMove rawMove) with
      | error msg => simp [stepKeys, failAt]
      | ok out =>
        obtain ⟨p', ext, cell⟩ := out
        simp only
        split_ifs <;> simp [stepKeys, failAt]
  · intro p' ext hml hns
    have hbase : stepKeys (stepMove cells portals rows cols goal maxSteps
        doorsRequireKeys collectAllKeys totalKeys i rawMove st) =
        insert (keyId p') st.keys := by
      simp only [stepMove]
      rw [if_neg hns]
      simp only [hml]
      have hKD : ("K" : String) ≠ "D" := by decide
      split_ifs <;> simp_all [stepKeys, failAt]
    refine ⟨hbase, fun hmem => ?_⟩
    rw [hbase]
    exact Finset.insert_eq_self.mpr hmem

/-! ## Lemmas about the move loop -/

/-- The step counter carried by a step outcome. -/
def stepSteps : StepOut → Nat
  | .done r => r.steps
  | .cont st => st.steps

lemma append_ne_of_not_prefix {p t : String} (h : ¬ p.data <+: t.data) (s : String) :
    p ++ s ≠ t := by
  intro e
  apply h
  rw [← e, String.data_append]
  exact List.prefix_append _ _

lemma ne_exhaust_move (s : String) :
    "Move " ++ s ≠ "Moves exhausted without reaching goal" :=
  append_ne_of_not_prefix (by decide) s

lemma ne_exhaust_portal (s : String) :
    "Portal error: " ++ s ≠ "Moves exhausted without reaching goal" :=
  append_ne_of_not_prefix (by decide) s

lemma moveLanding_error_msg {cells : Cells} {portals : List (String × Pos)}
    {rows cols i : Nat} {pos : Pos} {move : String} {msg : String}
    (h : moveLanding cells portals rows cols i pos move = .error msg) :
    msg ≠ "Moves exhausted without reaching goal" := by
  unfold moveLanding at h
  split at h
  · simp only [Except.error.injEq] at h
    rw [← h]
    simp only [String.append_assoc]
    exact ne_exhaust_move _
  split at h
  · simp only [Except.error.injEq] at h
    rw [← h]
    simp only [String.append_assoc]
    exact ne_exhaust_move _
  split at h
  · simp only [Except.error.injEq] at h
    rw [← h]
    simp only [String.append_assoc]
    exact ne_exhaust_move _
  split at h
  · simp only [Except.error.injEq] at h
    rw [← h]
    simp only [String.append_assoc]
    exact ne_exhaust_move _
  split at h
  · -- portal cell
    split at h
    · simp only [Except.error.injEq] at h
      rw [← h]
      exact ne_exhaust_portal _
    · unfold afterPortal at h
      split at h
      · split at h
        · simp only [Except.error.injEq] at h
          rw [← h]
          simp only [String.append_assoc]
          exact ne_exhaust_move _
        · simp at h
      · simp at h
  · simp at h

lemma stepMove_done_msg {cells : Cells} {portals : List (String × Pos)}
    {rows cols : Nat} {goal : Pos} {maxSteps : Nat}
    {doorsRequireKeys collectAllKeys : Bool} {totalKeys i : Nat}
    {rawMove : String} {st : SimState} {r : AttemptResult}
    (h : stepMove cells portals rows cols goal maxSteps doorsRequireKeys
      collectAllKeys totalKeys i rawMove st = .done r) :
    r.message ≠ "Moves exhausted without reaching goal" := by
  simp only [stepMove] at h
  by_cases hns : maxSteps < st.steps + 1
  · rw [if_pos hns] at h
    simp only [StepOut.done.injEq] at h
    rw [← h]
    simp only [failAt, String.append_assoc]
    exact append_ne_of_not_prefix (by decide) _
  · rw [if_neg hns] at h
    cases hml : moveLanding cells portals rows cols i st.pos (normalizeMove rawMove) with
    | error msg =>
      rw [hml] at h
      simp only [StepOut.done.injEq] at h
      rw [← h]
      exact moveLanding_error_msg hml
    | ok out =>
      obtain ⟨p', ext, cell⟩ := out
      rw [hml] at h
      simp only at h
      split_ifs at h <;> simp only [StepOut.done.injEq] at h <;> rw [← h] <;>
        simp only [failAt, String.append_assoc] <;>
        exact append_ne_of_not_prefix (by decide) _

section Loop

variable (cells : Cells) (portals : List (String × Pos)) (rows cols : Nat)
  (goal : Pos) (maxSteps : Nat) (doorsRequireKeys collectAllKeys : Bool)
  (totalKeys : Nat)

lemma stepMove_steps (i : Nat) (m : String) (st : SimState) :
    stepSteps (stepMove cells portals rows cols goal maxSteps doorsRequireKeys
      collectAllKeys totalKeys i m st) = st.steps + 1 := by
  simp only [stepMove]
  by_cases hns : maxSteps < st.steps + 1
  · rw [if_pos hns]
    rfl
  · rw [if_neg hns]
    cases hml : moveLanding cells portals rows cols i st.pos (normalizeMove m) with
    | error msg => simp [stepSteps, failAt]
    | ok out =>
      obtain ⟨p', ext, cell⟩ := out
      simp only
      split_ifs <;> simp [stepSteps, failAt]

lemma simLoop_steps : ∀ (ms : List String) (st : SimState) (i : Nat),
    (simLoop cells portals rows cols goal maxSteps doorsRequireKeys collectAllKeys
        totalKeys st i ms).steps =
      st.steps + movesConsumed cells portals rows cols goal maxSteps doorsRequireKeys
        collectAllKeys totalKeys st i ms := by
  intro ms
  induction ms with
  | nil => intro st i; simp [simLoop, movesConsumed, failAt]
  | cons m rest ih =>
    intro st i
    have hs := stepMove_steps cells portals rows cols goal maxSteps doorsRequireKeys
      collectAllKeys totalKeys i m st
    simp only [simLoop, movesConsumed]
    cases hsm : stepMove cells portals rows cols goal maxSteps doorsRequireKeys
        collectAllKeys totalKeys i m st with
    | done r =>
      rw [hsm] at hs
      simp only [stepSteps] at hs
      simpa using hs
    | cont st' =>
      rw [hsm] at hs
      simp only [stepSteps] at hs
      have h2 := ih st' (i + 1)
      simp
      omega

lemma movesConsumed_le : ∀ (ms : List String) (st : SimState) (i : Nat),
    movesConsumed cells portals rows cols goal maxSteps doorsRequireKeys
      collectAllKeys totalKeys st i ms ≤ ms.length := by
  intro ms
  induction ms with
  | nil => intro st i; simp [movesConsumed]
  | cons m rest ih =>
    intro st i
    simp only [movesConsumed]
    cases hsm : stepMove cells portals rows cols goal maxSteps doorsRequireKeys
        collectAllKeys totalKeys i m st with
    | done r => simp
    | cont st' =>
      have := ih st' (i + 1)
      simp
      omega

lemma simLoop_exhaust : ∀ (ms : List String) (st : SimState) (i : Nat),
    (simLoop cells portals rows cols goal maxSteps doorsRequireKeys collectAllKeys
        totalKeys st i ms).message = "Moves exhausted without reaching goal" →
    movesConsumed cells portals rows cols goal maxSteps doorsRequireKeys
      collectAllKeys totalKeys st i ms = ms.length := by
  intro ms
  induction ms with
  | nil => intro st i _; simp [movesConsumed]
  | cons m rest ih =>
    intro st i h
    simp only [simLoop] at h
    simp only [movesConsumed]
    cases hsm : stepMove cells portals rows cols goal maxSteps doorsRequireKeys
        collectAllKeys totalKeys i m st with
    | done r =>
      rw [hsm] at h
      simp at h
      exact absurd h (stepMove_done_msg hsm)
    | cont st' =>
      rw [hsm] at h
      simp at h
      have := ih st' (i + 1) h
      simp
      omega

end Loop

/-- C2: for every valid grid and move list, the returned `steps` equals the
number of moves consumed up to and including the terminating move
(`movesConsumedTotal`); it never exceeds the move-list length, and on
exhaustion it equals the move-list length. -/
theorem steps_eq_consumed (g : GridData) (moves : List String) (res : AttemptResult)
    (h : validate_moves g moves = .ok res) :
    res.steps = movesConsumedTotal g moves ∧
    movesConsumedTotal g moves ≤ moves.length ∧
    (res.message = "Moves exhausted without reaching goal" →
      res.steps = moves.length) := by
  simp only [validate_moves] at h
  split at h
  · simp at h
  by_cases hgoal : g.start = g.goal
  · rw [if_pos hgoal] at h
    by_cases hck : g.collect_all_keys = true ∧
        0 < if g.collect_all_keys = true then countCell g.cells "K" else 0
    · -- at goal, but all-keys requirement pending: the loop runs
      rw [if_pos hck] at h
      simp only [Except.ok.injEq] at h
      subst h
      simp only [movesConsumedTotal]
      rw [if_neg (show ¬ (g.start = g.goal ∧ ¬ (g.collect_all_keys = true ∧
        0 < if g.collect_all_keys = true then countCell g.cells "K" else 0)) from
        fun hc => hc.2 hck)]
      refine ⟨?_, movesConsumed_le _ _ _ _ _ _ _ _ _ _ _ _, ?_⟩
      · rw [simLoop_steps]
        simp
      · intro hmsg
        rw [simLoop_steps, simLoop_exhaust _ _ _ _ _ _ _ _ _ _ _ _ hmsg]
        simp
    · -- immediate-goal shortcut
      rw [if_neg hck] at h
      simp only [Except.ok.injEq] at h
      subst h
      simp only [movesConsumedTotal]
      rw [if_pos (show g.start = g.goal ∧ ¬ (g.collect_all_keys = true ∧
        0 < if g.collect_all_keys = true then countCell g.cells "K" else 0) from
        ⟨hgoal, hck⟩)]
      exact ⟨rfl, by simp, fun hmsg => absurd hmsg (by decide)⟩
  · -- start differs from goal: the loop runs
    rw [if_neg hgoal] at h
    simp only [Except.ok.injEq] at h
    subst h
    simp only [movesConsumedTotal]
    rw [if_neg (show ¬ (g.start = g.goal ∧ ¬ (g.collect_all_keys = true ∧
      0 < if g.collect_all_keys = true then countCell g.cells "K" else 0)) from
      fun hc => hgoal hc.1)]
    refine ⟨?_, movesConsumed_le _ _ _ _ _ _ _ _ _ _ _ _, ?_⟩
    · rw [simLoop_steps]
      simp
    · intro hmsg
      rw [simLoop_steps, simLoop_exhaust _ _ _ _ _ _ _ _ _ _ _ _ hmsg]
      simp

/-- C8: the simulation is deterministic — two calls of the engine on
identical grid and move inputs yield identical `AttemptResult` values in
every field. -/
theorem simulate_deterministic (g : GridData) (moves : List String)
    (r1 r2 : AttemptResult)
    (h1 : validate_moves g moves = .ok r1) (h2 : validate_moves g moves = .ok r2) :
    r1.success = r2.success ∧ r1.message = r2.message ∧ r1.steps = r2.steps ∧
    r1.keys_collected = r2.keys_collected ∧ r1.trace = r2.trace ∧
    r1.final_position = r2.final_position := by
  have he : r1 = r2 := by
    have := h1.symm.trans h2
    exact Except.ok.inj this
  subst he
  exact ⟨rfl, rfl, rfl, rfl, rfl, rfl⟩

/-! ## Trace invariant -/

section Trace

variable (cells : Cells) (portals : List (String × Pos)) (rows cols : Nat)
  (goal : Pos) (maxSteps : Nat) (doorsRequireKeys collectAllKeys : Bool)
  (totalKeys : Nat)

lemma stepMove_trace_inv (i : Nat) (rawMove : String) (st : SimState) (start0 : Pos)
    (hne : st.trace ≠ []) (hh : st.trace.head? = some start0)
    (hl : st.trace.getLast? = some st.pos) :
    (∀ r, stepMove cells portals rows cols goal maxSteps doorsRequireKeys
        collectAllKeys totalKeys i rawMove st = .done r →
      r.trace ≠ [] ∧ r.trace.head? = some start0 ∧
        r.trace.getLast? = some r.final_position) ∧
    (∀ st', stepMove cells portals rows cols goal maxSteps doorsRequireKeys
        collectAllKeys totalKeys i rawMove st = .cont st' →
      st'.trace ≠ [] ∧ st'.trace.head? = some start0 ∧
        st'.trace.getLast? = some st'.pos) := by
  obtain ⟨a, t, hat⟩ : ∃ a t, st.trace = a :: t := by
    cases htr : st.trace with
    | nil => exact absurd htr hne
    | cons a t => exact ⟨a, t, rfl⟩
  have ha : a = start0 := by
    rw [hat] at hh
    simpa using hh
  have fact2 : ∀ (ext : List Pos) (p' : Pos),
      (st.trace ++ ext ++ [p']).head? = some start0 := by
    intro ext p'
    rw [hat]
    simp [ha]
  have fact3 : ∀ (ext : List Pos) (p' : Pos),
      (st.trace ++ ext ++ [p']).getLast? = some p' := by
    intro ext p'
    exact List.getLast?_concat _
  constructor
  · intro r hr
    simp only [stepMove] at hr
    by_cases hns : maxSteps < st.steps + 1
    · rw [if_pos hns] at hr
      simp only [StepOut.done.injEq] at hr
      subst hr
      exact ⟨hne, hh, hl⟩
    · rw [if_neg hns] at hr
      cases hml : moveLanding cells portals rows cols i st.pos (normalizeMove rawMove) with
      | error msg =>
        rw [hml] at hr
        simp only [StepOut.done.injEq] at hr
        subst hr
        exact ⟨hne, hh, hl⟩
      | ok out =>
        obtain ⟨p', ext, cell⟩ := out
        rw [hml] at hr
        simp only at hr
        split_ifs at hr <;> simp only [StepOut.done.injEq] at hr <;> subst hr <;>
          exact ⟨by simp [failAt], by simpa [failAt] using fact2 _ _,
            by simpa [failAt] using fact3 _ _⟩
  · intro st' hc
    simp only [stepMove] at hc
    by_cases hns : maxSteps < st.steps + 1
    · rw [if_pos hns] at hc
      simp at hc
    · rw [if_neg hns] at hc
      cases hml : moveLanding cells portals rows cols i st.pos (normalizeMove rawMove) with
      | error msg =>
        rw [hml] at hc
        simp at hc
      | ok out =>
        obtain ⟨p', ext, cell⟩ := out
        rw [hml] at hc
        simp only at hc
        split_ifs at hc <;> simp only [StepOut.cont.injEq] at hc <;> try subst hc
        all_goals exact ⟨by simp, by simpa using fact2 _ _, by simpa using fact3 _ _⟩

lemma simLoop_trace_inv : ∀ (ms : List String) (st : SimState) (i : Nat) (start0 : Pos),
    st.trace ≠ [] → st.trace.head? = some start0 →
    st.trace.getLast? = some st.pos →
    (simLoop cells portals rows cols goal maxSteps doorsRequireKeys collectAllKeys
        totalKeys st i ms).trace ≠ [] ∧
    (simLoop cells portals rows cols goal maxSteps doorsRequireKeys collectAllKeys
        totalKeys st i ms).trace.head? = some start0 ∧
    (simLoop cells portals rows cols goal maxSteps doorsRequireKeys collectAllKeys
        totalKeys st i ms).trace.getLast? =
      some (simLoop cells portals rows cols goal maxSteps doorsRequireKeys
        collectAllKeys totalKeys st i ms).final_position := by
  intro ms
  induction ms with
  | nil =>
    intro st i start0 hne hh hl
    simpa [simLoop, failAt] using ⟨hne, hh, hl⟩
  | cons m rest ih =>
    intro st i start0 hne hh hl
    have hstep := stepMove_trace_inv cells portals rows cols goal maxSteps
      doorsRequireKeys collectAllKeys totalKeys i m st start0 hne hh hl
    simp only [simLoop]
    cases hsm : stepMove cells portals rows cols goal maxSteps doorsRequireKeys
        collectAllKeys totalKeys i m st with
    | done r =>
      simpa using hstep.1 r hsm
    | cont st' =>
      obtain ⟨h1, h2, h3⟩ := hstep.2 st' hsm
      simpa using ih st' (i + 1) start0 h1 h2 h3

end Trace

/-- C9: every returned result's trace is non-empty, starts at the grid's
start position, and ends exactly at the returned `final_position`. -/
theorem trace_invariant (g : GridData) (moves : List String) (res : AttemptResult)
    (h : validate_moves g moves = .ok res) :
    res.trace ≠ [] ∧ res.trace.head? = some g.start ∧
    res.trace.getLast? = some res.final_position := by
  simp only [validate_moves] at h
  split at h
  · simp at h
  by_cases hgoal : g.start = g.goal
  · rw [if_pos hgoal] at h
    by_cases hck : g.collect_all_keys = true ∧
        0 < if g.collect_all_keys = true then countCell g.cells "K" else 0
    · rw [if_pos hck] at h
      simp only [Except.ok.injEq] at h
      subst h
      exact simLoop_trace_inv _ _ _ _ _ _ _ _ _ _ _ _ _ (by simp) rfl rfl
    · rw [if_neg hck] at h
      simp only [Except.ok.injEq] at h
      subst h
      exact ⟨by simp, rfl, rfl⟩
  · rw [if_neg hgoal] at h
    simp only [Except.ok.injEq] at h
    subst h
    exact simLoop_trace_inv _ _ _ _ _ _ _ _ _ _ _ _ _ (by simp) rfl rfl

/-! ## Portal termination -/

lemma resolveAux_ne_none (cells : Cells) (portals : List (String × Pos))
    (rows cols maxJumps : Nat) :
    ∀ (fuel : Nat) (current : Pos) (visited : List String) (ttrace : List Pos)
      (jumps : Nat), jumps ≤ maxJumps → maxJumps < jumps + fuel →
      resolvePortalsAux cells portals rows cols maxJumps fuel current visited
        ttrace jumps ≠ none := by
  intro fuel
  induction fuel with
  | zero => intro current visited ttrace jumps h1 h2; omega
  | succ fuel ih =>
    intro current visited ttrace jumps h1 h2
    rw [resolvePortalsAux]
    repeat' split
    all_goals try (simp; done)
    exact ih _ _ _ _ (by omega) (by omega)

lemma resolveAux_ok_bound (cells : Cells) (portals : List (String × Pos))
    (rows cols maxJumps : Nat) :
    ∀ (fuel : Nat) (current : Pos) (visited : List String) (ttrace : List Pos)
      (jumps : Nat) (p : Pos) (tr : List Pos) (j : Nat), jumps ≤ maxJumps →
      resolvePortalsAux cells portals rows cols maxJumps fuel current visited
        ttrace jumps = some (.ok (p, tr, j)) → j ≤ maxJumps := by
  intro fuel
  induction fuel with
  | zero =>
    intro current visited ttrace jumps p tr j h1 h
    simp [resolvePortalsAux] at h
  | succ fuel ih =>
    intro current visited ttrace jumps p tr j h1 h
    rw [resolvePortalsAux] at h
    split at h
    · simp at h
    split at h
    · simp at h
    split at h
    · split at h
      · simp at h
      · simp only [Option.some.injEq, Except.ok.injEq, Prod.mk.injEq] at h
        omega
    split at h
    · simp at h
    split at h
    · simp at h
    split at h
    · simp at h
    split at h
    · simp at h
    exact ih _ _ _ _ _ _ _ (by omega) h

/-- A linear twelve-portal chain: resolving from its head exceeds the
ten-jump cap. -/
def chainCells : Cells :=
  [["P1", "P2", "P3", "P4", "P5", "P6", "P7", "P8", "P9", "P10", "P11", "P12"]]

/-- Portal targets for `chainCells`: each portal forwards one cell right. -/
def chainPortals : List (String × Pos) :=
  [("P1", ⟨0, 1⟩), ("P2", ⟨0, 2⟩), ("P3", ⟨0, 3⟩), ("P4", ⟨0, 4⟩),
   ("P5", ⟨0, 5⟩), ("P6", ⟨0, 6⟩), ("P7", ⟨0, 7⟩), ("P8", ⟨0, 8⟩),
   ("P9", ⟨0, 9⟩), ("P10", ⟨0, 10⟩), ("P11", ⟨0, 11⟩), ("P12", ⟨0, 11⟩)]

/-- A two-portal cycle: resolving from either cell revisits a label. -/
def loopCells : Cells := [["P1", "P2"]]

/-- Portal targets for `loopCells`: the two portals point at each other. -/
def loopPortals : List (String × Pos) := [("P1", ⟨0, 1⟩), ("P2", ⟨0, 0⟩)]

/-- C3: portal resolution always terminates — the resolution loop runs a
bounded number of iterations (fuel `maxJumps + 1` never runs out), a
successful resolution makes at most `maxJumps` jumps, a chain longer than
ten hops fails with the jump-limit error, and a chain revisiting a label
fails with the loop error. -/
theorem resolve_portals_terminates :
    (∀ (pos : Pos) (cells : Cells) (portals : List (String × Pos))
      (rows cols maxJumps : Nat),
      resolvePortalsAux cells portals rows cols maxJumps (maxJumps + 1) pos [] [] 0 ≠
        none) ∧
    (∀ (pos : Pos) (cells : Cells) (portals : List (String × Pos))
      (rows cols maxJumps : Nat) (p : Pos) (tr : List Pos) (j : Nat),
      resolve_portals pos cells portals rows cols maxJumps = .ok (p, tr, j) →
        j ≤ maxJumps) ∧
    resolve_portals ⟨0, 0⟩ chainCells chainPortals 1 12 =
      .error "Portal chain exceeded maximum jumps (10)" ∧
    resolve_portals ⟨0, 0⟩ loopCells loopPortals 1 2 =
      .error "Portal loop detected involving P1" := by
  refine ⟨?_, ?_, by rfl, by rfl⟩
  · intro pos cells portals rows cols maxJumps
    exact resolveAux_ne_none cells portals rows cols maxJumps (maxJumps + 1)
      pos [] [] 0 (by omega) (by omega)
  · intro pos cells portals rows cols maxJumps p tr j h
    unfold resolve_portals at h
    cases haux : resolvePortalsAux cells portals rows cols maxJumps (maxJumps + 1)
        pos [] [] 0 with
    | none =>
      rw [haux] at h
      simp at h
    | some r =>
      rw [haux] at h
      simp only at h
      rw [h] at haux
      exact resolveAux_ok_bound cells portals rows cols maxJumps (maxJumps + 1)
        pos [] [] 0 p tr j (by omega) haux

/-! ## Order of validation checks -/

instance {ε α : Type} [DecidableEq ε] [DecidableEq α] : DecidableEq (Except ε α)
  | .error a, .error b =>
    if h : a = b then .isTrue (by rw [h]) else .isFalse (by simp [h])
  | .error _, .ok _ => .isFalse (by simp)
  | .ok _, .error _ => .isFalse (by simp)
  | .ok a, .ok b =>
    if h : a = b then .isTrue (by rw [h]) else .isFalse (by simp [h])

/-- A grid holding both an unrecognized cell code (`X`) and an out-of-bounds
start position. -/
def cexGrid : GridData :=
  { rows := 1, cols := 2, start := ⟨0, 5⟩, goal := ⟨0, 0⟩,
    cells := [["G", "X"]], portals := [], max_steps := 1000,
    doors_require_keys := true, collect_all_keys := false }

/-- C7 counterexample: on a grid with both an unrecognized cell code and an
out-of-bounds start, validation returns the out-of-bounds error, not the
unknown-cell-code error — the cell-code check does not precede the bounds
check. -/
theorem check_order_counterexample :
    recognized "X" = false ∧
    is_position_valid cexGrid.start cexGrid.rows cexGrid.cols = false ∧
    validate_puzzle_grid cexGrid = .error "Start position (0, 5) is out of bounds" ∧
    validate_puzzle_grid cexGrid ≠
      .error ("Unknown cell value 'X' at (0,1). Allowed: " ++
        "[' ', 'D', 'G', 'K', 'S', 'W'] or 'P*'") := by
  refine ⟨by decide, by decide, by decide, by decide⟩

/-- C7 (amended): grid validation is fail-fast with the start/goal
in-bounds checks preceding cell-code recognition — for every grid passing
the dimension checks that contains an unrecognized cell code and has an
out-of-bounds start (resp. goal), the error returned is the out-of-bounds
error, not the unknown-cell-code error. -/
theorem bounds_check_precedes_cell_check (g : GridData)
    (h1 : 0 < g.rows) (h2 : 0 < g.cols)
    (h3 : g.cells.length = g.rows) (h4 : ∀ row ∈ g.cells, row.length = g.cols)
    (hbad : ∃ row ∈ g.cells, ∃ cell ∈ row, recognized cell = false) :
    (is_position_valid g.start g.rows g.cols = false →
      validate_puzzle_grid g =
        .error ("Start position " ++ posStr g.start ++ " is out of bounds")) ∧
    (is_position_valid g.start g.rows g.cols = true →
      is_position_valid g.goal g.rows g.cols = false →
      validate_puzzle_grid g =
        .error ("Goal position " ++ posStr g.goal ++ " is out of bounds")) := by
  have hrl : checkRowLengths g.cols 0 g.cells = .ok () :=
    (checkRowLengths_ok_iff _ _ _).mpr h4
  constructor
  · intro hs
    simp [validate_puzzle_grid, hrl, hs, h3,
      (by omega : g.rows ≠ 0), (by omega : g.cols ≠ 0), -Prod.mk_zero_zero]
    exact fun h' => absurd h' (by omega)
  · intro hs hg
    simp [validate_puzzle_grid, hrl, hs, hg, h3,
      (by omega : g.rows ≠ 0), (by omega : g.cols ≠ 0), -Prod.mk_zero_zero]
    exact fun h' => absurd h' (by omega)

/-! ## Example grids and witnesses -/

/-- Scenario grid: 4×4, start (0,0), goal (3,3), walls at (1,1) and (2,1). -/
def exGrid : GridData :=
  { rows := 4, cols := 4, start := ⟨0, 0⟩, goal := ⟨3, 3⟩,
    cells := [["S", " ", " ", " "], [" ", "W", " ", " "],
              [" ", "W", " ", " "], [" ", " ", " ", "G"]],
    portals := [], max_steps := 1000,
    doors_require_keys := true, collect_all_keys := false }

/-- The exhaustion result of running `exGrid` with no moves. -/
def exResultE : AttemptResult :=
  failAt "Moves exhausted without reaching goal" 0 ∅ [⟨0, 0⟩] ⟨0, 0⟩

/-- A one-row grid with a door between start and goal. -/
def doorCells : Cells := [["S", "D", "G"]]

/-- A one-row grid with a key between start and goal. -/
def keyCells : Cells := [["S", "K", "G"]]

/-- A one-row grid with a wall next to the start. -/
def wallCells : Cells := [["S", "W"]]

theorem validate_grid_ok_iff_witness : validate_puzzle_grid exGrid = .ok () :=
  (validate_grid_ok_iff exGrid).1.mpr (by decide)

theorem steps_eq_consumed_witness :
    exResultE.steps = movesConsumedTotal exGrid [] ∧
    movesConsumedTotal exGrid [] ≤ ([] : List String).length ∧
    (exResultE.message = "Moves exhausted without reaching goal" →
      exResultE.steps = ([] : List String).length) :=
  steps_eq_consumed exGrid [] exResultE (by decide)

theorem resolve_portals_terminates_witness : (0 : Nat) ≤ 10 :=
  resolve_portals_terminates.2.1 ⟨0, 0⟩ [[" "]] [] 1 1 10 ⟨0, 0⟩ [] 0 (by decide)

theorem door_rule_witness :
    stepMove doorCells [] 1 3 ⟨0, 2⟩ 1000 true false 0 0 "RIGHT"
        ⟨⟨0, 0⟩, {"k0"}, [⟨0, 0⟩], 0⟩ =
      .cont ⟨⟨0, 1⟩, {"k0"}, [⟨0, 0⟩, ⟨0, 1⟩], 1⟩ :=
  (door_rule doorCells [] 1 3 ⟨0, 2⟩ 1000 false 0 0 "RIGHT"
      ⟨⟨0, 0⟩, {"k0"}, [⟨0, 0⟩], 0⟩ ⟨0, 1⟩ [] (by decide) (by decide) (by decide)).2
    (by decide)

theorem all_keys_goal_rule_witness :
    stepMove keyCells [] 1 3 ⟨0, 2⟩ 1000 true true 1 1 "RIGHT"
        ⟨⟨0, 1⟩, ∅, [⟨0, 0⟩, ⟨0, 1⟩], 1⟩ =
      .done (failAt ("Must collect all keys (" ++ toString 1 ++
          ") before reaching goal. Collected: " ++ toString (∅ : Finset String).card)
        2 ∅ [⟨0, 0⟩, ⟨0, 1⟩, ⟨0, 2⟩] ⟨0, 2⟩) :=
  (all_keys_goal_rule keyCells [] 1 3 ⟨0, 2⟩ 1000 true 1 1 "RIGHT"
      ⟨⟨0, 1⟩, ∅, [⟨0, 0⟩, ⟨0, 1⟩], 1⟩ ⟨0, 2⟩ [] "G" (by decide) (by decide)
      (by decide) rfl).1 (by decide)

theorem key_collection_idempotent_witness :
    stepKeys (stepMove keyCells [] 1 3 ⟨0, 2⟩ 1000 true false 0 0 "RIGHT"
        ⟨⟨0, 0⟩, ∅, [⟨0, 0⟩], 0⟩) = insert (keyId ⟨0, 1⟩) ∅ :=
  ((key_collection_idempotent keyCells [] 1 3 ⟨0, 2⟩ 1000 true false 0 0 "RIGHT"
      ⟨⟨0, 0⟩, ∅, [⟨0, 0⟩], 0⟩).2 ⟨0, 1⟩ [] (by decide) (by decide)).1

theorem bounds_check_precedes_cell_check_witness :
    validate_puzzle_grid cexGrid =
      .error ("Start position " ++ posStr (⟨0, 5⟩ : Pos) ++ " is out of bounds") :=
  (bounds_check_precedes_cell_check cexGrid (by decide) (by decide) (by decide)
    (by decide) ⟨["G", "X"], by decide, "X", by decide, by decide⟩).1 (by decide)

theorem simulate_deterministic_witness :
    exResultE.success = exResultE.success ∧ exResultE.message = exResultE.message ∧
    exResultE.steps = exResultE.steps ∧
    exResultE.keys_collected = exResultE.keys_collected ∧
    exResultE.trace = exResultE.trace ∧
    exResultE.final_position = exResultE.final_position :=
  simulate_deterministic exGrid [] exResultE exResultE (by decide) (by decide)

theorem trace_invariant_witness :
    exResultE.trace ≠ [] ∧ exResultE.trace.head? = some exGrid.start ∧
    exResultE.trace.getLast? = some exResultE.final_position :=
  trace_invariant exGrid [] exResultE (by decide)

theorem rejected_move_state_unchanged_witness :
    stepMove wallCells [] 1 2 ⟨0, 1⟩ 1000 true false 0 0 "RIGHT"
        ⟨⟨0, 0⟩, ∅, [⟨0, 0⟩], 0⟩ =
      .done (failAt ("Move " ++ toString 1 ++ " (" ++ normalizeMove "RIGHT" ++
        ") hits a wall at " ++ posStr (⟨0, 1⟩ : Pos)) 1 ∅ [⟨0, 0⟩] ⟨0, 0⟩) :=
  (rejected_move_state_unchanged wallCells [] 1 2 ⟨0, 1⟩ 1000 true false 0 0
    "RIGHT" ⟨⟨0, 0⟩, ∅, [⟨0, 0⟩], 0⟩ _ (by decide) (by decide)).1

end Maze
